import Mathlib

/-!
Verification of the stock-analyzer data-acquisition core against its
specification.  The Python modules `backend/ticker_health.py`,
`backend/rate_limiter.py`, `backend/history_store.py`,
`backend/data_engine.py` and `backend/screener.py` are shallowly embedded
below: SQLite tables become lists or finite maps, wall-clock timestamps
become rationals, and the stateful methods become pure state-transition
functions.  The theorems at the end settle the specification claims.
-/

namespace StockAnalyzer

/-- Helper for `containsSubstr`: does `needle` occur contiguously in the
character list? -/
def listContainsSub (needle : List Char) : List Char → Bool
  | [] => needle.isEmpty
  | c :: rest => needle.isPrefixOf (c :: rest) || listContainsSub needle rest

/-- Substring test: `containsSubstr hay needle` is true when `needle`
occurs contiguously inside `hay` (models Python's `in` on strings). -/
def containsSubstr (hay needle : String) : Bool :=
  listContainsSub needle.toList hay.toList

/-- Python's `str.lower()`: lower-case every character. -/
def toLowerStr (s : String) : String :=
  ⟨s.data.map Char.toLower⟩

/-! ## backend/ticker_health.py -/

/-- `FAILURE_THRESHOLD = 2` from `ticker_health.py`. -/
def FAILURE_THRESHOLD : Nat := 2

/-- `RETRY_INTERVAL_DAYS = 7` from `ticker_health.py`; ledger timestamps
are rationals measured in days, so `timedelta(days=7)` is `+ 7`. -/
def RETRY_INTERVAL_DAYS : ℚ := 7

/-- `classify_failure` from `ticker_health.py`: case-insensitive
substring match, first match wins. -/
def classify_failure (error_msg : String) : String :=
  let error_lower := toLowerStr error_msg
  if containsSubstr error_lower "no data returned" ||
     containsSubstr error_lower "no price data" then "no_data"
  else if containsSubstr error_lower "expecting value" then "json_parse"
  else if containsSubstr error_lower "delisted" then "delisted"
  else if containsSubstr error_lower "timeout" then "timeout"
  else "unknown"

/-- One row of the `ticker_status` SQLite table. -/
structure TickerRow where
  status : String
  consecutive_failures : Nat
  last_failure_at : Option ℚ
  last_success_at : Option ℚ
  quarantined_at : Option ℚ
  next_retry_at : Option ℚ
  failure_reason : Option String
  deriving Repr, DecidableEq

/-- The `ticker_status` table, keyed by symbol (the SQL primary key). -/
abbrev Ledger : Type := String → Option TickerRow

/-- The empty `ticker_status` table. -/
def emptyLedger : Ledger := fun _ => none

/-- `TickerHealth.record_failure`: log the failure, bump the consecutive
failure count, and quarantine once the count reaches `FAILURE_THRESHOLD`
while the symbol is still active. -/
def record_failure (led : Ledger) (symbol reason : String) (now : ℚ) : Ledger :=
  let failure_reason := classify_failure reason
  fun s =>
    if s = symbol then
      match led symbol with
      | none =>
          some { status := "active"
                 consecutive_failures := 1
                 last_failure_at := some now
                 last_success_at := none
                 quarantined_at := none
                 next_retry_at := none
                 failure_reason := some failure_reason }
      | some row =>
          let consecutive_failures := row.consecutive_failures + 1
          if FAILURE_THRESHOLD ≤ consecutive_failures ∧ row.status = "active" then
            some { row with
                   status := "quarantined"
                   consecutive_failures := consecutive_failures
                   last_failure_at := some now
                   quarantined_at := some now
                   next_retry_at := some (now + RETRY_INTERVAL_DAYS)
                   failure_reason := some failure_reason }
          else
            some { row with
                   consecutive_failures := consecutive_failures
                   last_failure_at := some now
                   failure_reason := some failure_reason }
    else led s

/-- `TickerHealth.record_success`: reset the row to active with zero
consecutive failures and cleared quarantine columns. -/
def record_success (led : Ledger) (symbol : String) (now : ℚ) : Ledger :=
  fun s =>
    if s = symbol then
      match led symbol with
      | none =>
          some { status := "active"
                 consecutive_failures := 0
                 last_failure_at := none
                 last_success_at := some now
                 quarantined_at := none
                 next_retry_at := none
                 failure_reason := none }
      | some row =>
          some { row with
                 status := "active"
                 consecutive_failures := 0
                 last_success_at := some now
                 quarantined_at := none
                 next_retry_at := none }
    else led s

/-- `TickerHealth.is_quarantined`. -/
def is_quarantined (led : Ledger) (symbol : String) : Bool :=
  match led symbol with
  | none => false
  | some row => row.status == "quarantined"

/-- `TickerHealth.get_active_symbols`: drop the symbols whose row is
quarantined, keeping the input order. -/
def get_active_symbols (led : Ledger) (symbols : List String) : List String :=
  symbols.filter (fun s => !is_quarantined led s)

/-- `TickerHealth.update_retry_schedule`: `UPDATE ticker_status SET
next_retry_at = now + 7 days WHERE symbol = ?` (no status guard). -/
def update_retry_schedule (led : Ledger) (symbol : String) (now : ℚ) : Ledger :=
  fun s =>
    if s = symbol then
      (led symbol).map (fun row => { row with next_retry_at := some (now + RETRY_INTERVAL_DAYS) })
    else led s

/-- `TickerHealth.reset_all_quarantine`: every quarantined row goes back
to active with the failure count and quarantine columns cleared. -/
def reset_all_quarantine (led : Ledger) : Ledger :=
  fun s =>
    (led s).map (fun row =>
      if row.status = "quarantined" then
        { row with
          status := "active"
          consecutive_failures := 0
          quarantined_at := none
          next_retry_at := none }
      else row)

/-- `TickerHealth.should_quarantine`: guard against systemic failures;
quarantine is suppressed when more than half the universe failed. -/
def should_quarantine (symbol : String) (total_symbols failed_count : Nat) : Bool :=
  if total_symbols = 0 then true
  else
    let failure_rate : ℚ := (failed_count : ℚ) / (total_symbols : ℚ)
    if failure_rate > 1/2 then false
    else true

/-- One ledger-mutating call, used to describe reachable ledger states. -/
inductive HealthOp where
  | fail (symbol reason : String) (now : ℚ)
  | succeed (symbol : String) (now : ℚ)
  | updateRetry (symbol : String) (now : ℚ)
  | resetAll

/-- Apply one ledger operation. -/
def applyOp (led : Ledger) : HealthOp → Ledger
  | .fail symbol reason now => record_failure led symbol reason now
  | .succeed symbol now => record_success led symbol now
  | .updateRetry symbol now => update_retry_schedule led symbol now
  | .resetAll => reset_all_quarantine led

/-- Run a sequence of ledger operations from a starting state. -/
def runOps (led : Ledger) : List HealthOp → Ledger
  | [] => led
  | op :: ops => runOps (applyOp led op) ops

/-- Strengthened per-row invariant used to prove the quarantine-field
invariant: the status is one of the two legal strings, the quarantine
timestamp is set exactly on quarantined rows, and quarantined rows carry
a retry date. -/
def rowInv (row : TickerRow) : Prop :=
  (row.status = "active" ∨ row.status = "quarantined") ∧
  (row.status = "quarantined" ↔ row.quarantined_at.isSome = true) ∧
  (row.status = "quarantined" → row.next_retry_at.isSome = true)

/-- A ledger satisfies `rowInv` on every stored row. -/
def ledgerInv (led : Ledger) : Prop :=
  ∀ s row, led s = some row → rowInv row

/-! ## backend/rate_limiter.py

`RateLimiter.acquire` loops over critical sections guarded by the lock;
each iteration prunes the timestamp list to the trailing window and,
when fewer than `max_requests` remain, appends `now` and succeeds.  State
mutation and success grants happen only inside those critical sections,
so a run of the limiter is a sequence of critical-section entries at
nondecreasing clock readings.  `tryAcquire` is one critical section;
`runLimiter` replays a list of entry times. -/

/-- One pass through `acquire`'s locked section: prune timestamps older
than `period`, then either record `now` (success) or leave the pruned
list (the caller will sleep and retry). -/
def tryAcquire (max_requests : Nat) (period : ℚ) (timestamps : List ℚ) (now : ℚ) :
    Bool × List ℚ :=
  let kept := timestamps.filter (fun t => decide (now - t < period))
  if kept.length < max_requests then (true, kept ++ [now]) else (false, kept)

/-- Replay `acquire` critical sections at the given clock readings,
returning the successful acquisition timestamps in order. -/
def runLimiter (max_requests : Nat) (period : ℚ) (timestamps : List ℚ) :
    List ℚ → List ℚ
  | [] => []
  | now :: rest =>
    let step := tryAcquire max_requests period timestamps now
    (if step.1 then [now] else []) ++ runLimiter max_requests period step.2 rest

/-- Membership of a timestamp in the sliding half-open window
`(a, a + period]`. -/
def inWindow (a period t : ℚ) : Bool :=
  decide (a < t) && decide (t ≤ a + period)

/-! ## backend/history_store.py -/

/-- One row of the `daily_prices` SQLite table; the primary key is
`(symbol, date)`. -/
structure PriceRow where
  symbol : String
  date : String
  open_ : Option ℚ
  high : Option ℚ
  low : Option ℚ
  close : Option ℚ
  volume : Option ℤ
  deriving Repr, DecidableEq

/-- The `daily_prices` table as an ordered list of rows. -/
abbrev PriceTable : Type := List PriceRow

/-- Do two rows collide on the `(symbol, date)` primary key? -/
def sameKey (a b : PriceRow) : Bool :=
  a.symbol == b.symbol && a.date == b.date

/-- `HistoryStore.upsert`: `INSERT ... ON CONFLICT(symbol, date) DO
UPDATE` — replace the row with the conflicting key, or append. -/
def upsert (tbl : PriceTable) (r : PriceRow) : PriceTable :=
  if tbl.any (fun x => sameKey x r) then
    tbl.map (fun x => if sameKey x r then r else x)
  else tbl ++ [r]

/-- `HistoryStore.bulk_insert`: `executemany` of the same upsert
statement, processing the rows in order. -/
def bulk_insert (tbl : PriceTable) (rows : List PriceRow) : PriceTable :=
  rows.foldl upsert tbl

/-- `HistoryStore.count_days`: `SELECT COUNT(*) FROM daily_prices WHERE
symbol = ?`. -/
def count_days (tbl : PriceTable) (symbol : String) : Nat :=
  tbl.countP (fun x => x.symbol == symbol)

/-- The rows stored under one `(symbol, date)` key. -/
def rowsFor (tbl : PriceTable) (symbol date : String) : PriceTable :=
  tbl.filter (fun x => x.symbol == symbol && x.date == date)

/-- Primary-key uniqueness, which SQLite maintains for `daily_prices`. -/
def keysNodup (tbl : PriceTable) : Prop :=
  tbl.Pairwise (fun a b => sameKey a b = false)

/-! ## backend/data_engine.py -/

/-- `MAX_RETRIES = 3` from `data_engine.py`. -/
def MAX_RETRIES : Nat := 3

/-- `BACKOFF_FACTOR = 2` from `data_engine.py`. -/
def BACKOFF_FACTOR : ℚ := 2

/-- `REQUEST_DELAY_MAX = 5.0` from `data_engine.py`; this is the base of
the exponential backoff in `fetch_stock`. -/
def REQUEST_DELAY_MAX : ℚ := 5

/-- What one upstream call inside `fetch_stock` can produce: an empty
DataFrame, data, or a raised exception carrying a message. -/
inductive FetchOutcome where
  | empty
  | ok
  | err (msg : String)
  deriving Repr, DecidableEq

/-- A report made to the health ledger. -/
inductive HealthEvent where
  | success
  | failure (reason : String)
  deriving Repr, DecidableEq

/-- The throttling test in `fetch_stock`: the lowered message contains
"429", "too many" or "rate limit". -/
def is_rate_limit_error (msg : String) : Bool :=
  let error_str := toLowerStr msg
  containsSubstr error_str "429" || containsSubstr error_str "too many" ||
    containsSubstr error_str "rate limit"

/-- Observable result of one `fetch_stock` call: whether a DataFrame was
returned, the health-ledger reports made, and the backoff sleeps
performed (in seconds). -/
structure FetchResult where
  ok : Bool
  events : List HealthEvent
  sleeps : List ℚ
  deriving Repr, DecidableEq

/-- The `for attempt in range(MAX_RETRIES)` loop of
`DataEngine.fetch_stock`, with the upstream behaviour of each attempt
given by `upstream`; `fuel` is the number of attempts left. -/
def fetch_stock_go (upstream : Nat → FetchOutcome) : Nat → Nat → FetchResult
  | _, 0 =>
    { ok := false, events := [.failure "Max retries exceeded"], sleeps := [] }
  | attempt, fuel + 1 =>
    match upstream attempt with
    | .empty =>
      { ok := false, events := [.failure "No data returned"], sleeps := [] }
    | .ok =>
      { ok := true, events := [.success], sleeps := [] }
    | .err msg =>
      if is_rate_limit_error msg then
        let rest := fetch_stock_go upstream (attempt + 1) fuel
        { rest with
          sleeps := REQUEST_DELAY_MAX * BACKOFF_FACTOR ^ attempt :: rest.sleeps }
      else
        { ok := false, events := [.failure msg], sleeps := [] }

/-- `DataEngine.fetch_stock` for one symbol. -/
def fetch_stock (upstream : Nat → FetchOutcome) : FetchResult :=
  fetch_stock_go upstream 0 MAX_RETRIES

/-! ## backend/screener.py (risk/reward) -/

/-- Minimum of a list of rationals (`pandas.Series.min` on the trailing
window); `none` on an empty series. -/
def listMin : List ℚ → Option ℚ
  | [] => none
  | x :: xs => some (xs.foldl min x)

/-- Round half to even at integer precision, as Python's `round`. -/
def roundHalfEven (x : ℚ) : ℤ :=
  let f : ℤ := ⌊x⌋
  let frac : ℚ := x - f
  if frac < 1/2 then f
  else if 1/2 < frac then f + 1
  else if f % 2 = 0 then f else f + 1

/-- Python's `round(x, 2)`. -/
def round2 (x : ℚ) : ℚ :=
  (roundHalfEven (x * 100) : ℚ) / 100

/-- Result of `Screener.calculate_risk_reward`. -/
structure RRResult where
  stop_loss : ℚ
  take_profit : ℚ
  risk_reward_ratio : ℚ
  deriving Repr, DecidableEq

/-- `Screener.calculate_risk_reward`.  `ma20` is the latest row's `ma20`
(`none` when the column is missing or NaN, in which case the code
substitutes `0.95 * price`); `lows` is the `Low` column in date order;
`df["Low"].tail(20)` is the last 20 entries.  Returns `none` for an
empty series (where pandas would yield NaN). -/
def calculate_risk_reward (ma20 : Option ℚ) (lows : List ℚ) (current_price : ℚ) :
    Option RRResult :=
  let ma20v : ℚ := ma20.getD (current_price * (95 / 100))
  match listMin (lows.drop (lows.length - 20)) with
  | none => none
  | some recent_low =>
    let stop_loss := min ma20v recent_low
    let risk := current_price - stop_loss
    if risk ≤ 0 then
      some { stop_loss := stop_loss, take_profit := current_price, risk_reward_ratio := 0 }
    else
      let take_profit := current_price + risk * 3
      some { stop_loss := round2 stop_loss
             take_profit := round2 take_profit
             risk_reward_ratio := round2 3 }

/-! ## Theorems -/

/-- A Bool that is not true is false. -/
theorem bool_eq_false {b : Bool} (h : ¬b = true) : b = false := by
  cases b
  · rfl
  · exact absurd rfl h

/-- C10: `should_quarantine` is total: for zero `total_symbols` it
returns `True` without dividing, and for positive `total_symbols` it
returns `True` exactly when the failure rate is at most one half. -/
theorem should_quarantine_total_guarded (symbol : String) (total_symbols failed_count : Nat) :
    should_quarantine symbol total_symbols failed_count = true ↔
      (total_symbols = 0 ∨ (failed_count : ℚ) / (total_symbols : ℚ) ≤ 1 / 2) := by
  unfold should_quarantine
  by_cases h0 : total_symbols = 0
  · simp [h0]
  · simp only [h0, if_false, false_or]
    by_cases hr : (failed_count : ℚ) / (total_symbols : ℚ) > 1 / 2
    · simp [hr, not_le.mpr hr]
    · simp [hr, le_of_not_lt hr]

/-- C3: `record_success` always leaves the symbol active with zero
consecutive failures and cleared quarantine columns, whatever the prior
ledger state (in particular while still quarantined before
`next_retry_at`). -/
theorem record_success_resets (led : Ledger) (sym : String) (now : ℚ) :
    ∃ row, record_success led sym now sym = some row ∧
      row.status = "active" ∧ row.consecutive_failures = 0 ∧
      row.quarantined_at = none ∧ row.next_retry_at = none := by
  unfold record_success
  rw [if_pos rfl]
  cases h : led sym with
  | none => exact ⟨_, rfl, rfl, rfl, rfl, rfl⟩
  | some row => exact ⟨_, rfl, rfl, rfl, rfl, rfl⟩

/-- C2: from an active row with zero consecutive failures, one failure
leaves the symbol active with count 1, and a second consecutive failure
quarantines it with `quarantined_at = now`, `next_retry_at = now + 7`
days and the classified reason — quarantine at exactly the threshold of
2, never earlier. -/
theorem quarantine_at_threshold (led : Ledger) (sym r1 r2 : String) (t1 t2 : ℚ)
    (row : TickerRow) (h : led sym = some row) (hact : row.status = "active")
    (hcf : row.consecutive_failures = 0) :
    ∃ row1, record_failure led sym r1 t1 sym = some row1 ∧
      row1.status = "active" ∧ row1.consecutive_failures = 1 ∧
      ∃ row2, record_failure (record_failure led sym r1 t1) sym r2 t2 sym = some row2 ∧
        row2.status = "quarantined" ∧ row2.consecutive_failures = 2 ∧
        row2.quarantined_at = some t2 ∧
        row2.next_retry_at = some (t2 + RETRY_INTERVAL_DAYS) ∧
        row2.failure_reason = some (classify_failure r2) := by
  have h1 : record_failure led sym r1 t1 sym =
      some { row with
             consecutive_failures := 1
             last_failure_at := some t1
             failure_reason := some (classify_failure r1) } := by
    simp [record_failure, h, hcf, FAILURE_THRESHOLD]
  set led1 := record_failure led sym r1 t1 with hled1
  refine ⟨_, h1, hact, rfl, ?_⟩
  refine ⟨{ row with
            status := "quarantined"
            consecutive_failures := 2
            last_failure_at := some t2
            quarantined_at := some t2
            next_retry_at := some (t2 + RETRY_INTERVAL_DAYS)
            failure_reason := some (classify_failure r2) }, ?_, rfl, rfl, rfl, rfl, rfl⟩
  simp [record_failure, h1, hact, FAILURE_THRESHOLD]

/-- Witness for `quarantine_at_threshold` at a concrete ledger. -/
theorem quarantine_at_threshold_witness :
    ∃ row1, record_failure (record_success emptyLedger "A" 0) "A" "oops" 1 "A" = some row1 ∧
      row1.status = "active" ∧ row1.consecutive_failures = 1 ∧
      ∃ row2, record_failure (record_failure (record_success emptyLedger "A" 0) "A" "oops" 1)
          "A" "Request timeout" 2 "A" = some row2 ∧
        row2.status = "quarantined" ∧ row2.consecutive_failures = 2 ∧
        row2.quarantined_at = some 2 ∧
        row2.next_retry_at = some (2 + RETRY_INTERVAL_DAYS) ∧
        row2.failure_reason = some (classify_failure "Request timeout") :=
  quarantine_at_threshold _ "A" "oops" "Request timeout" 1 2
    { status := "active", consecutive_failures := 0, last_failure_at := none,
      last_success_at := some 0, quarantined_at := none, next_retry_at := none,
      failure_reason := none }
    rfl rfl rfl

/-- Every ledger operation preserves the per-row invariant `rowInv`. -/
theorem rowInv_applyOp (led : Ledger) (op : HealthOp) (h : ledgerInv led) :
    ledgerInv (applyOp led op) := by
  intro s row hrow
  cases op with
  | fail symbol reason now =>
    simp only [applyOp, record_failure] at hrow
    by_cases hs : s = symbol
    · rw [if_pos hs] at hrow
      cases hled : led symbol with
      | none =>
        simp only [hled] at hrow
        obtain rfl := Option.some.inj hrow
        simp [rowInv]
      | some row0 =>
        simp only [hled] at hrow
        have hinv0 := h symbol row0 hled
        split at hrow
        · obtain rfl := Option.some.inj hrow
          simp [rowInv]
        · obtain rfl := Option.some.inj hrow
          exact hinv0
    · rw [if_neg hs] at hrow
      exact h s row hrow
  | succeed symbol now =>
    simp only [applyOp, record_success] at hrow
    by_cases hs : s = symbol
    · rw [if_pos hs] at hrow
      cases hled : led symbol with
      | none =>
        simp only [hled] at hrow
        obtain rfl := Option.some.inj hrow
        simp [rowInv]
      | some row0 =>
        simp only [hled] at hrow
        obtain rfl := Option.some.inj hrow
        simp [rowInv]
    · rw [if_neg hs] at hrow
      exact h s row hrow
  | updateRetry symbol now =>
    simp only [applyOp, update_retry_schedule] at hrow
    by_cases hs : s = symbol
    · rw [if_pos hs] at hrow
      cases hled : led symbol with
      | none => simp [hled] at hrow
      | some row0 =>
        simp only [hled, Option.map_some'] at hrow
        obtain rfl := Option.some.inj hrow
        obtain ⟨hst, hiff, _⟩ := h symbol row0 hled
        exact ⟨hst, hiff, fun _ => rfl⟩
    · rw [if_neg hs] at hrow
      exact h s row hrow
  | resetAll =>
    simp only [applyOp, reset_all_quarantine] at hrow
    cases hled : led s with
    | none => simp [hled] at hrow
    | some row0 =>
      simp only [hled, Option.map_some'] at hrow
      have hinv0 := h s row0 hled
      by_cases hq : row0.status = "quarantined"
      · rw [if_pos hq] at hrow
        obtain rfl := Option.some.inj hrow
        simp [rowInv]
      · rw [if_neg hq] at hrow
        obtain rfl := Option.some.inj hrow
        exact hinv0

/-- Any sequence of ledger operations preserves the row invariant. -/
theorem ledgerInv_runOps (ops : List HealthOp) :
    ∀ led, ledgerInv led → ledgerInv (runOps led ops) := by
  induction ops with
  | nil => exact fun led h => h
  | cons op ops ih => exact fun led h => ih _ (rowInv_applyOp led op h)

/-- C4: in every ledger state reachable from the empty ledger by
`record_failure`, `record_success`, `update_retry_schedule` and
`reset_all_quarantine`, a stored row is quarantined exactly when both
`quarantined_at` and `next_retry_at` are set. -/
theorem quarantined_iff_fields (ops : List HealthOp) (sym : String) (row : TickerRow)
    (h : runOps emptyLedger ops sym = some row) :
    row.status = "quarantined" ↔
      (row.quarantined_at.isSome = true ∧ row.next_retry_at.isSome = true) := by
  have hinv : ledgerInv (runOps emptyLedger ops) :=
    ledgerInv_runOps ops emptyLedger (fun s row h => by simp [emptyLedger] at h)
  obtain ⟨hst, hiff, himp⟩ := hinv sym row h
  exact ⟨fun hq => ⟨hiff.mp hq, himp hq⟩, fun hqa => hiff.mpr hqa.1⟩

/-- Witness for `quarantined_iff_fields` on a concrete two-failure
history. -/
theorem quarantined_iff_fields_witness :
    ({ status := "quarantined", consecutive_failures := 2, last_failure_at := some 1,
       last_success_at := none, quarantined_at := some 1,
       next_retry_at := some (1 + RETRY_INTERVAL_DAYS),
       failure_reason := some (classify_failure "oops") } : TickerRow).status = "quarantined" ↔
      (({ status := "quarantined", consecutive_failures := 2, last_failure_at := some 1,
          last_success_at := none, quarantined_at := some 1,
          next_retry_at := some (1 + RETRY_INTERVAL_DAYS),
          failure_reason := some (classify_failure "oops") } : TickerRow).quarantined_at.isSome =
          true ∧
        ({ status := "quarantined", consecutive_failures := 2, last_failure_at := some 1,
           last_success_at := none, quarantined_at := some 1,
           next_retry_at := some (1 + RETRY_INTERVAL_DAYS),
           failure_reason := some (classify_failure "oops") } : TickerRow).next_retry_at.isSome =
          true) :=
  quarantined_iff_fields [.fail "A" "oops" 0, .fail "A" "oops" 1] "A" _ rfl

/-- C5: `update_retry_schedule` on a quarantined symbol pushes
`next_retry_at` to `now + 7` days, leaves the status quarantined, and
does not touch the consecutive-failure count. -/
theorem update_retry_keeps_quarantine (led : Ledger) (sym : String) (now : ℚ)
    (row : TickerRow) (h : led sym = some row) (hq : row.status = "quarantined") :
    ∃ row2, update_retry_schedule led sym now sym = some row2 ∧
      row2.status = "quarantined" ∧
      row2.consecutive_failures = row.consecutive_failures ∧
      row2.next_retry_at = some (now + RETRY_INTERVAL_DAYS) := by
  refine ⟨{ row with next_retry_at := some (now + RETRY_INTERVAL_DAYS) }, ?_, hq, rfl, rfl⟩
  simp [update_retry_schedule, h]

/-- Witness for `update_retry_keeps_quarantine` at a concrete ledger. -/
theorem update_retry_keeps_quarantine_witness :
    ∃ row2, update_retry_schedule
        (record_failure (record_failure emptyLedger "A" "oops" 0) "A" "oops" 1) "A" 3 "A" =
        some row2 ∧
      row2.status = "quarantined" ∧ row2.consecutive_failures = 2 ∧
      row2.next_retry_at = some (3 + RETRY_INTERVAL_DAYS) :=
  update_retry_keeps_quarantine _ "A" 3
    { status := "quarantined", consecutive_failures := 2, last_failure_at := some 1,
      last_success_at := none, quarantined_at := some 1,
      next_retry_at := some (1 + RETRY_INTERVAL_DAYS),
      failure_reason := some (classify_failure "oops") }
    rfl rfl

/-- Re-pruning at a later clock reading collapses to pruning once at the
later reading. -/
theorem filter_window_mono (period τ0 τ : ℚ) (h : τ0 ≤ τ) (S : List ℚ) :
    (S.filter (fun t => decide (τ0 - t < period))).filter
        (fun t => decide (τ - t < period)) =
      S.filter (fun t => decide (τ - t < period)) := by
  rw [List.filter_filter]
  apply List.filter_congr
  intro t _
  by_cases hτ : τ - t < period
  · have hτ0 : τ0 - t < period := lt_of_le_of_lt (by linarith) hτ
    simp [hτ, hτ0]
  · simp [hτ]

/-- Every success in a window `(a, a + period]` containing the clock
reading `τ` survives the pruning done at `τ`. -/
theorem countP_window_le_filter (period a τ : ℚ) (hwin : inWindow a period τ = true)
    (S : List ℚ) :
    S.countP (inWindow a period) ≤ (S.filter (fun t => decide (τ - t < period))).length := by
  rw [← List.countP_eq_length_filter]
  apply List.countP_mono_left
  intro t _ ht
  simp only [inWindow, Bool.and_eq_true, decide_eq_true_eq] at ht hwin ⊢
  obtain ⟨h1, _⟩ := ht
  obtain ⟨_, g2⟩ := hwin
  linarith

/-- Invariant step for the rate limiter: if the past successes `S`
respect the window bound and the limiter state is the pruning of `S` at
a reading below all remaining attempt readings, then the bound holds for
the whole run. -/
theorem runLimiter_bound_aux (max_requests : Nat) (period : ℚ) (hp : 0 < period) :
    ∀ attempts S : List ℚ, ∀ τ0 : ℚ,
      List.Sorted (· ≤ ·) attempts →
      (∀ τ ∈ attempts, τ0 ≤ τ) →
      (∀ a, S.countP (inWindow a period) ≤ max_requests) →
      ∀ a, ((S ++ runLimiter max_requests period
            (S.filter (fun t => decide (τ0 - t < period))) attempts).countP
          (inWindow a period)) ≤ max_requests := by
  intro attempts
  induction attempts with
  | nil =>
    intro S τ0 _ _ hbound a
    simpa [runLimiter] using hbound a
  | cons now rest ih =>
    intro S τ0 hsorted hlb hbound a
    rw [List.sorted_cons] at hsorted
    obtain ⟨hnowle, hsrest⟩ := hsorted
    have hτ0now : τ0 ≤ now := hlb now (List.mem_cons_self _ _)
    have hkept := filter_window_mono period τ0 now hτ0now S
    simp only [runLimiter, tryAcquire, hkept]
    by_cases hsucc : (S.filter (fun t => decide (now - t < period))).length < max_requests
    · rw [if_pos hsucc]
      have hstate : (S ++ [now]).filter (fun t => decide (now - t < period)) =
          S.filter (fun t => decide (now - t < period)) ++ [now] := by
        rw [List.filter_append]
        congr 1
        simp [sub_self, hp]
      have hbound' : ∀ b, ((S ++ [now]).countP (inWindow b period)) ≤ max_requests := by
        intro b
        rw [List.countP_append]
        by_cases hw : inWindow b period now = true
        · have hS : S.countP (inWindow b period) <
              max_requests :=
            lt_of_le_of_lt (countP_window_le_filter period b now hw S) hsucc
          have hone : ([now].countP (inWindow b period)) ≤ 1 := by
            simp [List.countP_cons, hw]
          omega
        · have hzero : ([now].countP (inWindow b period)) = 0 := by
            simp [List.countP_cons, hw]
          rw [hzero]
          simpa using hbound b
      have hrun := ih (S ++ [now]) now hsrest hnowle hbound' a
      rw [hstate] at hrun
      simpa [List.append_assoc] using hrun
    · rw [if_neg hsucc]
      have hrun := ih S now hsrest hnowle hbound a
      simpa using hrun

/-- C1: over any nondecreasing sequence of `acquire` critical-section
entries, the successful acquisition timestamps never put more than
`max_requests` successes inside any sliding window `(a, a + period]` of
`period` seconds. -/
theorem rate_limiter_window_bound (max_requests : Nat) (period : ℚ) (attempts : List ℚ)
    (hmono : List.Sorted (· ≤ ·) attempts) (a : ℚ) :
    (runLimiter max_requests period [] attempts).countP (inWindow a period) ≤
      max_requests := by
  by_cases hp : 0 < period
  · cases attempts with
    | nil => simp [runLimiter]
    | cons now rest =>
      have hlb : ∀ τ ∈ now :: rest, now ≤ τ := by
        intro τ hτ
        rcases List.mem_cons.mp hτ with rfl | hτ
        · exact le_refl τ
        · exact (List.sorted_cons.mp hmono).1 τ hτ
      have h := runLimiter_bound_aux max_requests period hp (now :: rest) [] now hmono hlb
        (fun b => by simp) a
      simpa using h
  · have hfalse : ∀ t, inWindow a period t = false := by
      intro t
      apply bool_eq_false
      intro hw
      simp only [inWindow, Bool.and_eq_true, decide_eq_true_eq] at hw
      obtain ⟨h1, h2⟩ := hw
      rw [not_lt] at hp
      linarith
    have hzero : (runLimiter max_requests period [] attempts).countP (inWindow a period) = 0 :=
      List.countP_eq_zero.mpr (fun t _ => by simp [hfalse t])
    rw [hzero]
    exact Nat.zero_le _

/-- Witness for `rate_limiter_window_bound` on a concrete schedule: with
3 requests per 5 seconds, entries at 0, 1, 2, 3 and 6 stay within the
budget on the window `(-1, 4]`. -/
theorem rate_limiter_window_bound_witness :
    (runLimiter 3 5 [] [0, 1, 2, 3, 6]).countP (inWindow (-1) 5) ≤ 3 :=
  rate_limiter_window_bound 3 5 [0, 1, 2, 3, 6]
    (by norm_num [List.sorted_cons]) (-1)

/-- `List.foldl min` is a lower bound of the start and the list, and is
attained. -/
theorem foldl_min_spec (xs : List ℚ) : ∀ x : ℚ,
    xs.foldl min x ≤ x ∧ (xs.foldl min x = x ∨ xs.foldl min x ∈ xs) ∧
      ∀ t ∈ xs, xs.foldl min x ≤ t := by
  induction xs with
  | nil =>
    intro x
    exact ⟨le_refl x, Or.inl rfl, by intro t ht; cases ht⟩
  | cons y ys ih =>
    intro x
    obtain ⟨h1, h2, h3⟩ := ih (min x y)
    simp only [List.foldl_cons]
    refine ⟨h1.trans (min_le_left x y), ?_, ?_⟩
    · rcases h2 with h2 | h2
      · rcases min_choice x y with hc | hc
        · exact Or.inl (h2.trans hc)
        · exact Or.inr (by rw [h2, hc]; exact List.mem_cons_self y ys)
      · exact Or.inr (List.mem_cons_of_mem y h2)
    · intro t ht
      rcases List.mem_cons.mp ht with rfl | ht
      · exact h1.trans (min_le_right x t)
      · exact h3 t ht

/-- A nonempty series has a minimum, computed by `listMin`. -/
theorem listMin_mem_le {l : List ℚ} (h : l ≠ []) :
    ∃ m, listMin l = some m ∧ m ∈ l ∧ ∀ t ∈ l, m ≤ t := by
  cases l with
  | nil => exact absurd rfl h
  | cons x xs =>
    obtain ⟨h1, h2, h3⟩ := foldl_min_spec xs x
    refine ⟨xs.foldl min x, rfl, ?_, ?_⟩
    · rcases h2 with h2 | h2
      · rw [h2]; exact List.mem_cons_self x xs
      · exact List.mem_cons_of_mem x h2
    · intro t ht
      rcases List.mem_cons.mp ht with rfl | ht
      · exact h1
      · exact h3 t ht

/-- `round(3.0, 2)` is exactly `3.0`. -/
theorem round2_three : round2 3 = 3 := by
  norm_num [round2, roundHalfEven]

/-- C9 counterexample: with `MA20 = 98.005` (= 19601/200), one low `99`
and price `100`, the returned `stop_loss` is the rounded `98`, not
`min(MA20, low) = 98.005`, so the claim's exact equations fail. -/
theorem risk_reward_claim_counterexample :
    calculate_risk_reward (some (19601 / 200 : ℚ)) [99] 100 ≠
      some { stop_loss := min (19601 / 200 : ℚ) 99,
             take_profit := 100 + (100 - min (19601 / 200 : ℚ) 99) * 3,
             risk_reward_ratio := 3 } := by
  have hmin : min (19601 / 200 : ℚ) 99 = 19601 / 200 := min_eq_left (by norm_num)
  have hL : calculate_risk_reward (some (19601 / 200 : ℚ)) [99] 100 =
      some { stop_loss := (98 : ℚ), take_profit := 5299 / 50, risk_reward_ratio := 3 } := by
    unfold calculate_risk_reward
    norm_num [listMin, hmin, round2, roundHalfEven]
  rw [hL, hmin]
  intro hEq
  have h2 := Option.some.inj hEq
  have h3 := congrArg RRResult.stop_loss h2
  norm_num at h3

/-- C9 (amended): `calculate_risk_reward` takes the true minimum of the
trailing 20 lows, sets `stop_loss = min(MA20, that minimum)` and, in the
valid-setup branch, returns `stop_loss` and `take_profit = price +
3*risk` rounded to two decimals with the ratio exactly 3.0; when `risk ≤
0` it returns the unrounded stop, `take_profit = price`, ratio 0. -/
theorem calculate_risk_reward_rounded (ma20 : ℚ) (lows : List ℚ) (price : ℚ)
    (h : lows ≠ []) :
    ∃ recent_low,
      recent_low ∈ lows.drop (lows.length - 20) ∧
      (∀ t ∈ lows.drop (lows.length - 20), recent_low ≤ t) ∧
      calculate_risk_reward (some ma20) lows price =
        some (if price - min ma20 recent_low ≤ 0 then
                { stop_loss := min ma20 recent_low, take_profit := price,
                  risk_reward_ratio := 0 }
              else
                { stop_loss := round2 (min ma20 recent_low),
                  take_profit := round2 (price + (price - min ma20 recent_low) * 3),
                  risk_reward_ratio := 3 }) := by
  have hlen : lows.length ≠ 0 := by
    intro h0
    exact h (List.length_eq_zero.mp h0)
  have hd : lows.drop (lows.length - 20) ≠ [] := by
    rw [Ne, List.drop_eq_nil_iff]
    omega
  obtain ⟨m, hm, hmem, hle⟩ := listMin_mem_le hd
  refine ⟨m, hmem, hle, ?_⟩
  unfold calculate_risk_reward
  simp only [hm, Option.getD_some]
  by_cases hr : price - min ma20 m ≤ 0
  · rw [if_pos hr, if_pos hr]
  · rw [if_neg hr, if_neg hr, round2_three]

/-- Witness for `calculate_risk_reward_rounded` on the spec's example
numbers. -/
theorem calculate_risk_reward_rounded_witness :
    ∃ recent_low,
      recent_low ∈ (([98] : List ℚ).drop (([98] : List ℚ).length - 20)) ∧
      (∀ t ∈ (([98] : List ℚ).drop (([98] : List ℚ).length - 20)), recent_low ≤ t) ∧
      calculate_risk_reward (some 100) [98] 105 =
        some (if (105 : ℚ) - min 100 recent_low ≤ 0 then
                { stop_loss := min (100 : ℚ) recent_low, take_profit := 105,
                  risk_reward_ratio := 0 }
              else
                { stop_loss := round2 (min (100 : ℚ) recent_low),
                  take_profit := round2 (105 + (105 - min (100 : ℚ) recent_low) * 3),
                  risk_reward_ratio := 3 }) :=
  calculate_risk_reward_rounded 100 [98] 105 (by simp)

/-- Every run of the fetch loop reports to the health ledger exactly
once, whatever the upstream does. -/
theorem fetch_stock_go_events_length (upstream : Nat → FetchOutcome) :
    ∀ fuel attempt, (fetch_stock_go upstream attempt fuel).events.length = 1 := by
  intro fuel
  induction fuel with
  | zero => intro attempt; rfl
  | succ n ih =>
    intro attempt
    cases hu : upstream attempt with
    | empty => simp [fetch_stock_go, hu]
    | ok => simp [fetch_stock_go, hu]
    | err msg =>
      by_cases ht : is_rate_limit_error msg = true
      · simp [fetch_stock_go, hu, ht, ih]
      · simp [fetch_stock_go, hu, ht]

/-- C8: the direct fetch strategy — an empty upstream result fails at
once with reason "No data returned"; a non-throttling error fails at
once with that error as the reason; throttling errors back off
`REQUEST_DELAY_MAX * BACKOFF_FACTOR ^ attempt` seconds and retry, and
three consecutive throttling errors exhaust the attempt cap with reason
"Max retries exceeded"; a success after `k` throttling errors returns
data having slept the `k` corresponding backoffs; and in every case
exactly one outcome is reported to the health ledger per fetch call. -/
theorem fetch_stock_spec (upstream : Nat → FetchOutcome) :
    (upstream 0 = .empty →
      fetch_stock upstream =
        { ok := false, events := [.failure "No data returned"], sleeps := [] }) ∧
    (∀ msg, upstream 0 = .err msg → is_rate_limit_error msg = false →
      fetch_stock upstream = { ok := false, events := [.failure msg], sleeps := [] }) ∧
    ((∀ i, i < MAX_RETRIES → ∃ msg, upstream i = .err msg ∧ is_rate_limit_error msg = true) →
      fetch_stock upstream =
        { ok := false, events := [.failure "Max retries exceeded"],
          sleeps := [REQUEST_DELAY_MAX * BACKOFF_FACTOR ^ 0,
                     REQUEST_DELAY_MAX * BACKOFF_FACTOR ^ 1,
                     REQUEST_DELAY_MAX * BACKOFF_FACTOR ^ 2] }) ∧
    (∀ k, k < MAX_RETRIES →
      (∀ i, i < k → ∃ msg, upstream i = .err msg ∧ is_rate_limit_error msg = true) →
      upstream k = .ok →
      fetch_stock upstream =
        { ok := true, events := [.success],
          sleeps := (List.range k).map (fun i => REQUEST_DELAY_MAX * BACKOFF_FACTOR ^ i) }) ∧
    (fetch_stock upstream).events.length = 1 := by
  refine ⟨?_, ?_, ?_, ?_, fetch_stock_go_events_length upstream MAX_RETRIES 0⟩
  · intro h
    simp only [fetch_stock, MAX_RETRIES, fetch_stock_go, h]
  · intro msg h hf
    simp [fetch_stock, MAX_RETRIES, fetch_stock_go, h, hf]
  · intro h
    obtain ⟨m0, e0, t0⟩ := h 0 (by decide)
    obtain ⟨m1, e1, t1⟩ := h 1 (by decide)
    obtain ⟨m2, e2, t2⟩ := h 2 (by decide)
    simp only [fetch_stock, MAX_RETRIES, fetch_stock_go, e0, t0, e1, t1, e2, t2, if_true]
  · intro k hk hpre hok
    simp only [MAX_RETRIES] at hk
    interval_cases k
    · simp [fetch_stock, MAX_RETRIES, fetch_stock_go, hok]
    · obtain ⟨m0, e0, t0⟩ := hpre 0 (by decide)
      simp [fetch_stock, MAX_RETRIES, fetch_stock_go, e0, t0, hok, List.range_succ]
    · obtain ⟨m0, e0, t0⟩ := hpre 0 (by decide)
      obtain ⟨m1, e1, t1⟩ := hpre 1 (by decide)
      simp [fetch_stock, MAX_RETRIES, fetch_stock_go, e0, t0, e1, t1, hok, List.range_succ]

/-- Witness for `fetch_stock_spec`: three consecutive throttling errors
exhaust the cap. -/
theorem fetch_stock_spec_witness :
    fetch_stock (fun _ => FetchOutcome.err "HTTP 429 Too Many Requests") =
      { ok := false, events := [.failure "Max retries exceeded"],
        sleeps := [REQUEST_DELAY_MAX * BACKOFF_FACTOR ^ 0,
                   REQUEST_DELAY_MAX * BACKOFF_FACTOR ^ 1,
                   REQUEST_DELAY_MAX * BACKOFF_FACTOR ^ 2] } :=
  (fetch_stock_spec (fun _ => FetchOutcome.err "HTTP 429 Too Many Requests")).2.2.1
    (fun _ _ => ⟨"HTTP 429 Too Many Requests", rfl, by decide⟩)

/-- `sameKey` is reflexive. -/
theorem sameKey_refl (r : PriceRow) : sameKey r r = true := by
  simp [sameKey]

/-- A key match gives equal symbol and date. -/
theorem sameKey_eq {x r : PriceRow} (h : sameKey x r = true) :
    x.symbol = r.symbol ∧ x.date = r.date := by
  simpa [sameKey] using h

/-- Rows agreeing on symbol and date match keys. -/
theorem sameKey_of_parts {a b : PriceRow} (h1 : a.symbol = b.symbol) (h2 : a.date = b.date) :
    sameKey a b = true := by
  simp [sameKey, h1, h2]

/-- A failed key match refutes symbol-and-date agreement. -/
theorem not_sameKey {a b : PriceRow} (h : sameKey a b = false) (h1 : a.symbol = b.symbol)
    (h2 : a.date = b.date) : False := by
  simp [sameKey, h1, h2] at h

/-- Replacing the key-matching row does not change the per-symbol count
when the replacement carries the same symbol. -/
theorem countP_map_replace (r : PriceRow) (s : String) :
    ∀ tbl : PriceTable,
      ((tbl.map (fun x => if sameKey x r then r else x)).countP (fun x => x.symbol == s)) =
        tbl.countP (fun x => x.symbol == s)
  | [] => rfl
  | x :: xs => by
    simp only [List.map_cons, List.countP_cons, countP_map_replace r s xs]
    congr 1
    by_cases hk : sameKey x r = true
    · rw [if_pos hk, (sameKey_eq hk).1]
    · rw [if_neg hk]

/-- `upsert` into a table already holding the key keeps every
per-symbol row count. -/
theorem count_days_upsert_present (tbl : PriceTable) (r : PriceRow) (s : String)
    (hp : tbl.any (fun x => sameKey x r) = true) :
    count_days (upsert tbl r) s = count_days tbl s := by
  unfold count_days upsert
  rw [if_pos hp]
  exact countP_map_replace r s tbl

/-- After an `upsert` of `r`, any row with `r`'s key is present. -/
theorem any_key_upsert (tbl : PriceTable) (r r2 : PriceRow) (hk : sameKey r r2 = true) :
    (upsert tbl r).any (fun x => sameKey x r2) = true := by
  unfold upsert
  by_cases hp : tbl.any (fun x => sameKey x r) = true
  · rw [if_pos hp]
    rw [List.any_eq_true] at hp ⊢
    obtain ⟨x, hx, hxa⟩ := hp
    refine ⟨r, ?_, hk⟩
    rw [List.mem_map]
    exact ⟨x, hx, by rw [if_pos hxa]⟩
  · rw [if_neg hp]
    rw [List.any_eq_true]
    exact ⟨r, by simp, hk⟩

/-- `upsert` preserves primary-key uniqueness. -/
theorem keysNodup_upsert (tbl : PriceTable) (r : PriceRow) (h : keysNodup tbl) :
    keysNodup (upsert tbl r) := by
  unfold upsert
  by_cases hp : tbl.any (fun x => sameKey x r) = true
  · rw [if_pos hp]
    unfold keysNodup at h ⊢
    rw [List.pairwise_map]
    refine h.imp ?_
    intro a b hab
    by_cases ha : sameKey a r = true
    · rw [if_pos ha]
      by_cases hb : sameKey b r = true
      · exfalso
        obtain ⟨e1, e2⟩ := sameKey_eq ha
        obtain ⟨f1, f2⟩ := sameKey_eq hb
        exact not_sameKey hab (e1.trans f1.symm) (e2.trans f2.symm)
      · rw [if_neg hb]
        by_cases hrb : sameKey r b = true
        · exfalso
          obtain ⟨e1, e2⟩ := sameKey_eq ha
          obtain ⟨g1, g2⟩ := sameKey_eq hrb
          exact not_sameKey hab (e1.trans g1) (e2.trans g2)
        · exact bool_eq_false hrb
    · rw [if_neg ha]
      by_cases hb : sameKey b r = true
      · rw [if_pos hb]
        exact bool_eq_false ha
      · rw [if_neg hb]
        exact hab
  · rw [if_neg hp]
    have hp' := bool_eq_false hp
    rw [List.any_eq_false] at hp'
    unfold keysNodup at h ⊢
    rw [List.pairwise_append]
    refine ⟨h, List.pairwise_singleton _ _, ?_⟩
    intro a ha b hb
    rw [List.mem_singleton] at hb
    subst hb
    exact bool_eq_false (hp' a ha)

/-- In a key-unique table where `r`'s key is present, replacing the
match leaves `r` as the unique row with its key. -/
theorem filter_map_replace (r : PriceRow) :
    ∀ tbl : PriceTable, keysNodup tbl → tbl.any (fun x => sameKey x r) = true →
      ((tbl.map (fun x => if sameKey x r then r else x)).filter (fun x => sameKey x r)) = [r] := by
  intro tbl
  induction tbl with
  | nil => intro _ hp; simp at hp
  | cons x xs ih =>
    intro hnd hp
    rw [keysNodup, List.pairwise_cons] at hnd
    obtain ⟨hx, hxs⟩ := hnd
    by_cases hxr : sameKey x r = true
    · have hxsno : ∀ y ∈ xs, sameKey y r = false := by
        intro y hy
        by_cases hyr : sameKey y r = true
        · exfalso
          obtain ⟨e1, e2⟩ := sameKey_eq hxr
          obtain ⟨g1, g2⟩ := sameKey_eq hyr
          exact not_sameKey (hx y hy) (e1.trans g1.symm) (e2.trans g2.symm)
        · exact bool_eq_false hyr
      rw [List.map_cons, if_pos hxr, List.filter_cons, if_pos (sameKey_refl r)]
      have hnil : ((xs.map (fun y => if sameKey y r then r else y)).filter
          (fun y => sameKey y r)) = [] := by
        rw [List.filter_eq_nil_iff]
        intro z hz
        rw [List.mem_map] at hz
        obtain ⟨y, hy, hfy⟩ := hz
        rw [if_neg (by simp [hxsno y hy])] at hfy
        subst hfy
        simp [hxsno y hy]
      rw [hnil]
    · have hpx : xs.any (fun y => sameKey y r) = true := by
        rw [List.any_cons, bool_eq_false hxr, Bool.false_or] at hp
        exact hp
      rw [List.map_cons, if_neg hxr, List.filter_cons, if_neg hxr]
      exact ih hxs hpx

/-- In a key-unique table, after `upsert tbl r` the rows matching `r`'s
key are exactly `[r]`. -/
theorem upsert_filter_key (tbl : PriceTable) (r : PriceRow) (h : keysNodup tbl) :
    (upsert tbl r).filter (fun x => sameKey x r) = [r] := by
  unfold upsert
  by_cases hp : tbl.any (fun x => sameKey x r) = true
  · rw [if_pos hp]
    exact filter_map_replace r tbl h hp
  · rw [if_neg hp]
    have hp' := bool_eq_false hp
    rw [List.any_eq_false] at hp'
    rw [List.filter_append]
    have h1 : tbl.filter (fun x => sameKey x r) = [] := by
      rw [List.filter_eq_nil_iff]
      exact hp'
    rw [h1]
    simp [sameKey_refl]

/-- C7: writing the same `(symbol, date)` key twice — by `upsert` or by
`bulk_insert` of both rows — leaves exactly one row for the key, holding
the later values, and the per-symbol row count is unchanged by the
repeat write. -/
theorem upsert_idempotent (tbl : PriceTable) (r1 r2 : PriceRow)
    (hnd : keysNodup tbl) (hk : sameKey r1 r2 = true) :
    rowsFor (upsert (upsert tbl r1) r2) r2.symbol r2.date = [r2] ∧
    count_days (upsert (upsert tbl r1) r2) r2.symbol = count_days (upsert tbl r1) r2.symbol ∧
    bulk_insert tbl [r1, r2] = upsert (upsert tbl r1) r2 := by
  refine ⟨?_, ?_, rfl⟩
  · exact upsert_filter_key (upsert tbl r1) r2 (keysNodup_upsert tbl r1 hnd)
  · exact count_days_upsert_present (upsert tbl r1) r2 r2.symbol
      (any_key_upsert tbl r1 r2 hk)

/-- Witness for `upsert_idempotent` on a concrete pair of bars. -/
theorem upsert_idempotent_witness :
    rowsFor (upsert (upsert [] ⟨"2330", "2024-01-02", some 100, some 101, some 99, some 100, some 1000⟩)
        ⟨"2330", "2024-01-02", some 100, some 102, some 99, some 101, some 1200⟩) "2330" "2024-01-02" =
      [⟨"2330", "2024-01-02", some 100, some 102, some 99, some 101, some 1200⟩] ∧
    count_days (upsert (upsert [] ⟨"2330", "2024-01-02", some 100, some 101, some 99, some 100, some 1000⟩)
        ⟨"2330", "2024-01-02", some 100, some 102, some 99, some 101, some 1200⟩) "2330" =
      count_days (upsert [] ⟨"2330", "2024-01-02", some 100, some 101, some 99, some 100, some 1000⟩) "2330" ∧
    bulk_insert [] [⟨"2330", "2024-01-02", some 100, some 101, some 99, some 100, some 1000⟩,
        ⟨"2330", "2024-01-02", some 100, some 102, some 99, some 101, some 1200⟩] =
      upsert (upsert [] ⟨"2330", "2024-01-02", some 100, some 101, some 99, some 100, some 1000⟩)
        ⟨"2330", "2024-01-02", some 100, some 102, some 99, some 101, some 1200⟩ :=
  upsert_idempotent [] _ _ (List.Pairwise.nil) rfl

/-- C6: `get_active_symbols` returns exactly the input symbols that are
not quarantined, in input order (a subsequence of the input); symbols
never seen by the ledger are kept; the empty input gives the empty
output. -/
theorem get_active_symbols_spec (led : Ledger) (symbols : List String) :
    (get_active_symbols led symbols).Sublist symbols ∧
    (∀ s, s ∈ get_active_symbols led symbols ↔
      s ∈ symbols ∧ is_quarantined led s = false) ∧
    (∀ s, led s = none → s ∈ symbols → s ∈ get_active_symbols led symbols) ∧
    get_active_symbols led [] = [] := by
  refine ⟨List.filter_sublist _, fun s => ?_, fun s hnone hmem => ?_, rfl⟩
  · simp [get_active_symbols, List.mem_filter, Bool.not_eq_true']
  · simp only [get_active_symbols, List.mem_filter, Bool.not_eq_true']
    exact ⟨hmem, by simp [is_quarantined, hnone]⟩

/-- Witness for `get_active_symbols_spec` on the spec's example: only
"B" quarantined filters `["A","B","C"]` to `["A","C"]`. -/
theorem get_active_symbols_spec_witness :
    get_active_symbols (record_failure (record_failure emptyLedger "B" "oops" 0) "B" "oops" 1)
        ["A", "B", "C"] = ["A", "C"] ∧
    (∀ s, s ∈ get_active_symbols
        (record_failure (record_failure emptyLedger "B" "oops" 0) "B" "oops" 1)
        ["A", "B", "C"] ↔
      s ∈ ["A", "B", "C"] ∧
        is_quarantined (record_failure (record_failure emptyLedger "B" "oops" 0) "B" "oops" 1)
          s = false) :=
  ⟨by decide,
   (get_active_symbols_spec (record_failure (record_failure emptyLedger "B" "oops" 0)
      "B" "oops" 1) ["A", "B", "C"]).2.1⟩

end StockAnalyzer
